import Mathlib

/-!
Shallow embedding of `src/libs/reportUtils.js`, a library of pure
classification and formatting helpers for chat "report" records.

Modelling conventions:
- JavaScript objects become Lean structures; a field that may be absent
  (`undefined`) is an `Option`.  `lodashGet(o, path, default)` becomes an
  explicit `Option` match with the same default.
- JavaScript string values are `String`; truthiness of a possibly-absent
  string (`undefined` and `""` are falsy) is `jsTruthyStr`.
- The module-level cached `sessionEmail` (fed by an external store
  subscription) is passed as an explicit `Option String` parameter.
- The external localization service `Localize.translateLocal` is passed as
  an explicit `String → String` parameter.
- Code that dereferences a possibly-`undefined` value (which would raise a
  `TypeError` at runtime) is embedded in `Except String`, with `.error`
  marking the raise.
-/

namespace ReportUtils

/-- A timezone record attached to a personal-details profile; the code only
reads its `selected` flag (truthiness). -/
structure Timezone where
  selected : Bool := false
  deriving DecidableEq

/-- A personal-details profile; the code only reads its optional `timezone`
field. -/
structure PersonalDetail where
  timezone : Option Timezone := none
  deriving DecidableEq

/-- A policy record from the caller-supplied policies map; the code only
reads its optional `name`. -/
structure Policy where
  name : Option String := none
  deriving DecidableEq

/-- One element of a report action's `message` array, with optional `html`
and `text` fields. -/
structure MessagePart where
  html : Option String := none
  text : Option String := none
  deriving DecidableEq

/-- A report record, with every field the module reads; absent fields are
`none` (or `false` for the `isOwnPolicyExpenseChat` flag, whose JS
truthiness collapses to a Bool). -/
structure Report where
  reportID : Option String := none
  chatType : Option String := none
  reportName : Option String := none
  policyID : Option String := none
  isOwnPolicyExpenseChat : Bool := false
  oldPolicyName : Option String := none
  statusNum : Option Nat := none
  stateNum : Option Nat := none
  lastVisitedTimestamp : Option Nat := none
  participants : Option (List String) := none
  deriving DecidableEq

/-- A report-action record, with every field the module reads. -/
structure ReportAction where
  actorEmail : Option String := none
  reportActionID : Option String := none
  actionName : Option String := none
  message : Option (List MessagePart) := none
  deriving DecidableEq

/-- Modelled from the spec: `CONST.REPORT.CHAT_TYPE.POLICY_ADMINS` (the
`CONST` module is not under `src/`; the spec lists the chatType enum as
policy-admins, policy-announce, domain-all, policy-room,
policy-expense-chat). -/
def CHAT_TYPE_POLICY_ADMINS : String := "policy-admins"

/-- Modelled from the spec: `CONST.REPORT.CHAT_TYPE.POLICY_ANNOUNCE`. -/
def CHAT_TYPE_POLICY_ANNOUNCE : String := "policy-announce"

/-- Modelled from the spec: `CONST.REPORT.CHAT_TYPE.DOMAIN_ALL`. -/
def CHAT_TYPE_DOMAIN_ALL : String := "domain-all"

/-- Modelled from the spec: `CONST.REPORT.CHAT_TYPE.POLICY_ROOM`. -/
def CHAT_TYPE_POLICY_ROOM : String := "policy-room"

/-- Modelled from the spec: `CONST.REPORT.CHAT_TYPE.POLICY_EXPENSE_CHAT`. -/
def CHAT_TYPE_POLICY_EXPENSE_CHAT : String := "policy-expense-chat"

/-- Modelled from the spec: `CONST.REPORT.ACTIONS.TYPE.ADDCOMMENT`, the
ADD_COMMENT action kind. -/
def ACTION_TYPE_ADDCOMMENT : String := "ADDCOMMENT"

/-- Modelled from the spec: `CONST.REPORT.STATUS.CLOSED`, an externally
defined enum constant whose numeric value the spec leaves abstract. -/
def REPORT_STATUS_CLOSED : Nat := 2

/-- Modelled from the spec: `CONST.REPORT.STATE_NUM.SUBMITTED`, an
externally defined enum constant whose numeric value the spec leaves
abstract. -/
def REPORT_STATE_NUM_SUBMITTED : Nat := 1

/-- Modelled from the spec: `CONST.EMAIL.CONCIERGE`, the reserved Concierge
participant identifier. -/
def EMAIL_CONCIERGE : String := "concierge@expensify.com"

/-- Modelled from the spec: `CONST.EXPENSIFY_EMAILS`, the fixed
reserved-system-email set; it contains the Concierge identifier. -/
def EXPENSIFY_EMAILS : List String := [EMAIL_CONCIERGE]

/-- Modelled from the spec: `CONST.DEFAULT_TIME_ZONE`, the default timezone
constant substituted for a missing profile timezone; its `selected` flag is
not set (the spec requires "has a timezone AND the timezone's selected flag
is true" for the local-time row, so the default must not count as
selected). -/
def DEFAULT_TIME_ZONE : Timezone := { selected := false }

/-- Modelled from the spec and the source doc comments:
`ONYXKEYS.COLLECTION.POLICY`, the key prefix of the caller-supplied
policies map ("must have onyxkey prefix (i.e 'policy_') for keys"). -/
def ONYXKEYS_COLLECTION_POLICY : String := "policy_"

/-- JavaScript truthiness of a possibly-absent string: `undefined` and the
empty string are falsy. -/
def jsTruthyStr : Option String → Bool
  | none => false
  | some s => !(s == "")

/-- JavaScript string coercion of a possibly-absent string, as performed by
a template literal: `undefined` prints as "undefined". -/
def jsStringOf : Option String → String
  | none => "undefined"
  | some s => s

/-- Embeds `isReportMessageAttachment`: the message text equals the literal
attachment sentinel. -/
def isReportMessageAttachment (reportMessageText : String) : Bool :=
  reportMessageText == "[Attachment]"

/-- The underscore `_.sortBy` comparison on the `lastVisitedTimestamp` sort
key: an absent (`undefined`) key sorts after every present key, present
keys compare numerically, and equal keys (including two absent ones) are
tied. -/
def tsKeyLE : Option Nat → Option Nat → Bool
  | _, none => true
  | none, some _ => false
  | some a, some b => a ≤ b

/-- The report ordering used by `sortReportsByLastVisited`: compare the
`lastVisitedTimestamp` sort keys. -/
def reportTsLE (a b : Report) : Bool :=
  tsKeyLE a.lastVisitedTimestamp b.lastVisitedTimestamp

/-- The filter predicate of `sortReportsByLastVisited`: an entry is kept
when the report itself is truthy (not null/undefined) and its `reportID` is
truthy. -/
def keptEntry : Option Report → Bool
  | none => false
  | some r => jsTruthyStr r.reportID

/-- Embeds `sortReportsByLastVisited`: keep the truthy entries with a truthy
`reportID`, then sort ascending by `lastVisitedTimestamp` with the stable
`_.sortBy` (embedded as the stable `List.mergeSort`). -/
def sortReportsByLastVisited (reports : List (Option Report)) : List Report :=
  ((reports.filter keptEntry).filterMap id).mergeSort reportTsLE

/-- The text of the first message part of a report action,
`lodashGet(reportAction, ['message', 0, 'text'], '')`: any missing step of
the path yields the empty string. -/
def firstMessageText (reportAction : ReportAction) : String :=
  match reportAction.message with
  | some (m :: _) => m.text.getD ""
  | _ => ""

/-- Embeds `canEditReportAction` with the cached session email passed
explicitly: the actor is the current user, the action has a truthy
`reportActionID` (not an optimistic response), it is an ADDCOMMENT, and its
first message text is not the attachment sentinel. -/
def canEditReportAction (sessionEmail : Option String) (reportAction : ReportAction) : Bool :=
  (reportAction.actorEmail == sessionEmail)
    && jsTruthyStr reportAction.reportActionID
    && (reportAction.actionName == some ACTION_TYPE_ADDCOMMENT)
    && !(isReportMessageAttachment (firstMessageText reportAction))

/-- Embeds `canDeleteReportAction` with the cached session email passed
explicitly: as `canEditReportAction` but without the attachment check. -/
def canDeleteReportAction (sessionEmail : Option String) (reportAction : ReportAction) : Bool :=
  (reportAction.actorEmail == sessionEmail)
    && jsTruthyStr reportAction.reportActionID
    && (reportAction.actionName == some ACTION_TYPE_ADDCOMMENT)

/-- The defaulted chat type `lodashGet(report, ['chatType'], '')`. -/
def chatTypeOf (report : Report) : String :=
  report.chatType.getD ""

/-- Embeds `isDefaultRoom`: the defaulted chat type is one of the three
default-room chat types. -/
def isDefaultRoom (report : Report) : Bool :=
  [CHAT_TYPE_POLICY_ADMINS,
   CHAT_TYPE_POLICY_ANNOUNCE,
   CHAT_TYPE_DOMAIN_ALL].contains (chatTypeOf report)

/-- Embeds `isAdminRoom`. -/
def isAdminRoom (report : Report) : Bool :=
  chatTypeOf report == CHAT_TYPE_POLICY_ADMINS

/-- Embeds `isAnnounceRoom`. -/
def isAnnounceRoom (report : Report) : Bool :=
  chatTypeOf report == CHAT_TYPE_POLICY_ANNOUNCE

/-- Embeds `isUserCreatedPolicyRoom`. -/
def isUserCreatedPolicyRoom (report : Report) : Bool :=
  chatTypeOf report == CHAT_TYPE_POLICY_ROOM

/-- Embeds `isPolicyExpenseChat`. -/
def isPolicyExpenseChat (report : Report) : Bool :=
  chatTypeOf report == CHAT_TYPE_POLICY_EXPENSE_CHAT

/-- Embeds `isChatRoom`: a user-created policy room or a default room. -/
def isChatRoom (report : Report) : Bool :=
  isUserCreatedPolicyRoom report || isDefaultRoom report

/-- Embeds `findLastAccessedReport`: sort by last visited, optionally drop
default rooms, and return the last entry (`undefined`, i.e. `none`, when
the remaining sequence is empty). -/
def findLastAccessedReport (reports : List (Option Report)) (ignoreDefaultRooms : Bool) :
    Option Report :=
  let sortedReports := sortReportsByLastVisited reports
  let sortedReports :=
    if ignoreDefaultRooms then sortedReports.filter (fun report => !(isDefaultRoom report))
    else sortedReports
  sortedReports.getLast?

/-- Embeds `isArchivedRoom`: false unless the report is a chat room or a
policy-expense chat; otherwise both the status and state must equal the
closed/submitted constants. -/
def isArchivedRoom (report : Report) : Bool :=
  if !(isChatRoom report) && !(isPolicyExpenseChat report) then false
  else
    (report.statusNum == some REPORT_STATUS_CLOSED)
      && (report.stateNum == some REPORT_STATE_NUM_SUBMITTED)

/-- Embeds `getChatRoomSubtitle` with the localization service passed as
`translateLocal`.  The domain-all branch dereferences `report.reportName`
directly (`report.reportName.substring(1)`), so an absent name raises a
`TypeError`, embedded as `.error`; `substring(1)` drops the first
character.  The archived branch returns the raw `oldPolicyName` field
(possibly `undefined`, i.e. `.ok none`). -/
def getChatRoomSubtitle (translateLocal : String → String) (report : Report)
    (policiesMap : List (String × Policy)) : Except String (Option String) :=
  if !(isDefaultRoom report) && !(isUserCreatedPolicyRoom report)
      && !(isPolicyExpenseChat report) then
    .ok (some "")
  else if report.chatType == some CHAT_TYPE_DOMAIN_ALL then
    match report.reportName with
    | none => .error "TypeError: cannot read substring of undefined"
    | some name => .ok (some (String.mk (name.data.drop 1)))
  else if isArchivedRoom report then
    .ok report.oldPolicyName
  else if isPolicyExpenseChat report && report.isOwnPolicyExpenseChat then
    .ok (some (translateLocal "workspace.common.workspace"))
  else
    .ok (some
      (((policiesMap.lookup
          (ONYXKEYS_COLLECTION_POLICY ++ jsStringOf report.policyID)).bind Policy.name).getD
        (translateLocal "workspace.common.unavailable")))

/-- Embeds `isConciergeChatReport`: the defaulted participants list has
exactly one entry and it is the Concierge identifier (the second conjunct
is only reached when the list is nonempty). -/
def isConciergeChatReport (report : Report) : Bool :=
  ((report.participants.getD []).length == 1)
    && ((report.participants.getD []).headD "" == EMAIL_CONCIERGE)

/-- Embeds `hasExpensifyEmails`: the intersection of the given emails with
the reserved system email set is nonempty. -/
def hasExpensifyEmails (emails : List String) : Bool :=
  (emails.filter (fun e => EXPENSIFY_EMAILS.contains e)).length > 0

/-- Embeds `canShowReportRecipientLocalTime`: the recipient is the first
participant's profile looked up in `personalDetails`; its timezone defaults
to `DEFAULT_TIME_ZONE` when absent.  (The JS `reportRecipientTimezone`
truthiness conjunct always passes in this model, the value being an
object.) -/
def canShowReportRecipientLocalTime (personalDetails : List (String × PersonalDetail))
    (report : Report) : Bool :=
  let reportParticipants := report.participants.getD []
  let hasMultipleParticipants := reportParticipants.length > 1
  let reportRecipient : Option PersonalDetail :=
    match reportParticipants.head? with
    | none => none
    | some p => personalDetails.lookup p
  let reportRecipientTimezone :=
    (reportRecipient.bind PersonalDetail.timezone).getD DEFAULT_TIME_ZONE
  !(hasExpensifyEmails reportParticipants)
    && !hasMultipleParticipants
    && reportRecipient.isSome
    && reportRecipientTimezone.selected

/-- Embeds `isDeletedAction`: `action.message.length === 0 ||
action.message[0].html === ''`.  The `.length` access dereferences
`action.message` directly, so an absent `message` raises a `TypeError`,
embedded as `.error`. -/
def isDeletedAction (action : ReportAction) : Except String Bool :=
  match action.message with
  | none => .error "TypeError: cannot read length of undefined"
  | some [] => .ok true
  | some (m :: _) => .ok (m.html == some "")

/-! Helper lemmas about the `lastVisitedTimestamp` comparison and the
stable sort. -/

theorem tsKeyLE_refl (a : Option Nat) : tsKeyLE a a = true := by
  cases a <;> simp [tsKeyLE]

theorem reportTsLE_trans (a b c : Report) (hab : reportTsLE a b) (hbc : reportTsLE b c) :
    reportTsLE a c := by
  revert hab hbc
  unfold reportTsLE
  cases a.lastVisitedTimestamp <;> cases b.lastVisitedTimestamp
    <;> cases c.lastVisitedTimestamp <;> simp [tsKeyLE] <;> omega

theorem reportTsLE_total (a b : Report) : reportTsLE a b || reportTsLE b a := by
  unfold reportTsLE
  cases a.lastVisitedTimestamp <;> cases b.lastVisitedTimestamp
    <;> simp [tsKeyLE] <;> omega

theorem filter_keptEntry_filterMap (reports : List (Option Report)) :
    (reports.filter keptEntry).filterMap id
      = (reports.filterMap id).filter (fun r => jsTruthyStr r.reportID) := by
  induction reports with
  | nil => rfl
  | cons o rest ih =>
      cases o with
      | none => simpa [keptEntry] using ih
      | some r =>
          by_cases h : jsTruthyStr r.reportID
          · simp [keptEntry, h, ih]
          · simp [keptEntry, h, ih]

theorem mergeSort_filter_tsKey (l : List Report) (t : Option Nat) :
    (l.mergeSort reportTsLE).filter (fun r => r.lastVisitedTimestamp == t)
      = l.filter (fun r => r.lastVisitedTimestamp == t) := by
  have hpw : (l.filter (fun r => r.lastVisitedTimestamp == t)).Pairwise
      (fun a b => reportTsLE a b = true) := by
    apply List.pairwise_of_forall_mem_list
    intro a ha b hb
    have h1 : a.lastVisitedTimestamp = t := by
      simpa using (List.mem_filter.mp ha).2
    have h2 : b.lastVisitedTimestamp = t := by
      simpa using (List.mem_filter.mp hb).2
    simp [reportTsLE, h1, h2, tsKeyLE_refl]
  have hsub : List.Sublist (l.filter (fun r => r.lastVisitedTimestamp == t))
      (l.mergeSort reportTsLE) :=
    List.sublist_mergeSort reportTsLE_trans reportTsLE_total hpw (List.filter_sublist l)
  have heq : (l.filter (fun r => r.lastVisitedTimestamp == t)).filter
      (fun r => r.lastVisitedTimestamp == t) = l.filter (fun r => r.lastVisitedTimestamp == t) :=
    List.filter_eq_self.mpr (fun a ha => (List.mem_filter.mp ha).2)
  have hsub2 : List.Sublist (l.filter (fun r => r.lastVisitedTimestamp == t))
      ((l.mergeSort reportTsLE).filter (fun r => r.lastVisitedTimestamp == t)) := by
    have h := hsub.filter (fun r => r.lastVisitedTimestamp == t)
    rwa [heq] at h
  have hlen : ((l.mergeSort reportTsLE).filter (fun r => r.lastVisitedTimestamp == t)).length
      = (l.filter (fun r => r.lastVisitedTimestamp == t)).length :=
    (List.Perm.filter _ (List.mergeSort_perm l reportTsLE)).length_eq
  exact (hsub2.eq_of_length hlen.symm).symm

/-- C1: for every collection of reports, `sortReportsByLastVisited` returns
exactly the entries that are truthy and have a truthy `reportID`, ordered
non-decreasing by `lastVisitedTimestamp`, and among entries with equal
timestamps the original relative order is preserved (stable sort). -/
theorem sortReportsByLastVisited_spec (reports : List (Option Report)) :
    (sortReportsByLastVisited reports).Pairwise (fun a b => reportTsLE a b = true)
    ∧ (sortReportsByLastVisited reports).Perm
        ((reports.filterMap id).filter (fun r => jsTruthyStr r.reportID))
    ∧ ∀ t : Option Nat,
        (sortReportsByLastVisited reports).filter (fun r => r.lastVisitedTimestamp == t)
          = ((reports.filterMap id).filter (fun r => jsTruthyStr r.reportID)).filter
              (fun r => r.lastVisitedTimestamp == t) := by
  refine ⟨?_, ?_, ?_⟩
  · exact List.sorted_mergeSort reportTsLE_trans reportTsLE_total
      ((reports.filter keptEntry).filterMap id)
  · rw [sortReportsByLastVisited, filter_keptEntry_filterMap]
    exact List.mergeSort_perm _ _
  · intro t
    rw [sortReportsByLastVisited, filter_keptEntry_filterMap, mergeSort_filter_tsKey]

/-- C2: `canEditReportAction` is truthy exactly when the actor email equals
the cached session email, the action has a truthy `reportActionID`, it is
an ADDCOMMENT, and the first message part's text (defaulting to the empty
string) is not the attachment sentinel; in particular it is falsy whenever
`reportActionID` is absent. -/
theorem canEditReportAction_spec (sessionEmail : Option String) (a : ReportAction) :
    (canEditReportAction sessionEmail a = true ↔
      (a.actorEmail = sessionEmail
        ∧ jsTruthyStr a.reportActionID = true
        ∧ a.actionName = some ACTION_TYPE_ADDCOMMENT
        ∧ firstMessageText a ≠ "[Attachment]"))
    ∧ (a.reportActionID = none → canEditReportAction sessionEmail a = false) := by
  constructor
  · unfold canEditReportAction isReportMessageAttachment
    simp [and_assoc]
  · intro h
    simp [canEditReportAction, h, jsTruthyStr]

theorem canEditReportAction_spec_witness :
    canEditReportAction (some "me@example.com")
      { actorEmail := some "me@example.com", reportActionID := none,
        actionName := some ACTION_TYPE_ADDCOMMENT,
        message := some [{ text := some "hello" }] } = false
    ∧ canEditReportAction (some "me@example.com")
      { actorEmail := some "me@example.com", reportActionID := some "42",
        actionName := some ACTION_TYPE_ADDCOMMENT,
        message := some [{ text := some "hello" }] } = true :=
  ⟨(canEditReportAction_spec (some "me@example.com") _).2 rfl,
   (canEditReportAction_spec (some "me@example.com") _).1.mpr
     ⟨rfl, by decide, rfl, by decide⟩⟩

/-- C3: `canDeleteReportAction` is `canEditReportAction` without the
attachment check: editable implies deletable, and an ADDCOMMENT by the
session user with an id whose first message text is the attachment
sentinel is deletable but not editable. -/
theorem canDeleteReportAction_spec (sessionEmail : Option String) (a : ReportAction) :
    (canEditReportAction sessionEmail a = true → canDeleteReportAction sessionEmail a = true)
    ∧ (a.actorEmail = sessionEmail → jsTruthyStr a.reportActionID = true →
        a.actionName = some ACTION_TYPE_ADDCOMMENT →
        firstMessageText a = "[Attachment]" →
        canDeleteReportAction sessionEmail a = true
          ∧ canEditReportAction sessionEmail a = false) := by
  constructor
  · intro h
    simp only [canEditReportAction, Bool.and_eq_true] at h
    obtain ⟨⟨⟨h1, h2⟩, h3⟩, h4⟩ := h
    simp [canDeleteReportAction, h1, h2, h3]
  · intro h1 h2 h3 h4
    constructor
    · simp [canDeleteReportAction, h1, h2, h3]
    · simp [canEditReportAction, isReportMessageAttachment, h4]

theorem canDeleteReportAction_spec_witness :
    canDeleteReportAction (some "me@example.com")
      { actorEmail := some "me@example.com", reportActionID := some "42",
        actionName := some ACTION_TYPE_ADDCOMMENT,
        message := some [{ text := some "[Attachment]" }] } = true
    ∧ canEditReportAction (some "me@example.com")
      { actorEmail := some "me@example.com", reportActionID := some "42",
        actionName := some ACTION_TYPE_ADDCOMMENT,
        message := some [{ text := some "[Attachment]" }] } = false :=
  (canDeleteReportAction_spec (some "me@example.com") _).2 rfl (by decide) rfl rfl

/-- C6: `isArchivedRoom` is false unless the report is a chat room or a
policy-expense chat; on those it holds exactly when `statusNum` is the
CLOSED constant and `stateNum` is the SUBMITTED constant; a 1:1 report
(absent chatType) is never archived. -/
theorem isArchivedRoom_spec (report : Report) :
    (¬(isChatRoom report = true ∨ isPolicyExpenseChat report = true) →
        isArchivedRoom report = false)
    ∧ ((isChatRoom report = true ∨ isPolicyExpenseChat report = true) →
        (isArchivedRoom report = true ↔
          report.statusNum = some REPORT_STATUS_CLOSED
            ∧ report.stateNum = some REPORT_STATE_NUM_SUBMITTED))
    ∧ (report.chatType = none → isArchivedRoom report = false) := by
  refine ⟨?_, ?_, ?_⟩
  · intro h
    rw [not_or] at h
    obtain ⟨h1, h2⟩ := h
    rw [Bool.not_eq_true] at h1 h2
    simp [isArchivedRoom, h1, h2]
  · intro h
    rcases h with h | h
    · simp [isArchivedRoom, h]
    · simp [isArchivedRoom, h]
  · intro h
    have hfalse : isChatRoom report = false ∧ isPolicyExpenseChat report = false := by
      unfold isChatRoom isUserCreatedPolicyRoom isDefaultRoom isPolicyExpenseChat chatTypeOf
      rw [h]
      decide
    simp [isArchivedRoom, hfalse.1, hfalse.2]

theorem isArchivedRoom_spec_witness :
    isArchivedRoom
      { chatType := some CHAT_TYPE_POLICY_ROOM,
        statusNum := some REPORT_STATUS_CLOSED,
        stateNum := some REPORT_STATE_NUM_SUBMITTED } = true
    ∧ isArchivedRoom
      { statusNum := some REPORT_STATUS_CLOSED,
        stateNum := some REPORT_STATE_NUM_SUBMITTED } = false :=
  ⟨((isArchivedRoom_spec _).2.1 (Or.inl (by decide))).mpr ⟨rfl, rfl⟩,
   (isArchivedRoom_spec _).2.2 rfl⟩

/-- C9: `isConciergeChatReport` holds exactly when the (defaulted)
participants list is the one-element list containing the Concierge
identifier; absent participants count as an empty list and yield false. -/
theorem isConciergeChatReport_spec (report : Report) :
    (isConciergeChatReport report = true ↔
      report.participants.getD [] = [EMAIL_CONCIERGE])
    ∧ (report.participants = none → isConciergeChatReport report = false) := by
  constructor
  · unfold isConciergeChatReport
    cases hp : report.participants with
    | none => simp
    | some l =>
        cases l with
        | nil => simp
        | cons x xs =>
            cases xs with
            | nil => simp
            | cons y ys => simp
  · intro h
    simp [isConciergeChatReport, h]

theorem isConciergeChatReport_spec_witness :
    isConciergeChatReport { participants := some [EMAIL_CONCIERGE] } = true
    ∧ isConciergeChatReport { participants := some ["a@b.com", EMAIL_CONCIERGE] } = false
    ∧ isConciergeChatReport ({} : Report) = false :=
  ⟨(isConciergeChatReport_spec _).1.mpr rfl,
   by decide,
   (isConciergeChatReport_spec _).2 rfl⟩

/-- C10: the room-kind predicates `isAdminRoom`, `isAnnounceRoom`,
`isUserCreatedPolicyRoom` and `isPolicyExpenseChat` are pairwise mutually
exclusive (each compares the defaulted chatType with a distinct constant),
and a default room is neither a user-created policy room nor a
policy-expense chat. -/
theorem roomKindPredicates_exclusive (report : Report) :
    (isAdminRoom report = true →
        isAnnounceRoom report = false ∧ isUserCreatedPolicyRoom report = false
          ∧ isPolicyExpenseChat report = false)
    ∧ (isAnnounceRoom report = true →
        isUserCreatedPolicyRoom report = false ∧ isPolicyExpenseChat report = false)
    ∧ (isUserCreatedPolicyRoom report = true → isPolicyExpenseChat report = false)
    ∧ (isDefaultRoom report = true →
        isUserCreatedPolicyRoom report = false ∧ isPolicyExpenseChat report = false) := by
  refine ⟨?_, ?_, ?_, ?_⟩
  · intro h
    rw [isAdminRoom, beq_iff_eq] at h
    refine ⟨?_, ?_, ?_⟩ <;>
      simp [isAnnounceRoom, isUserCreatedPolicyRoom, isPolicyExpenseChat, h,
        CHAT_TYPE_POLICY_ADMINS, CHAT_TYPE_POLICY_ANNOUNCE, CHAT_TYPE_POLICY_ROOM,
        CHAT_TYPE_POLICY_EXPENSE_CHAT]
  · intro h
    rw [isAnnounceRoom, beq_iff_eq] at h
    refine ⟨?_, ?_⟩ <;>
      simp [isUserCreatedPolicyRoom, isPolicyExpenseChat, h,
        CHAT_TYPE_POLICY_ANNOUNCE, CHAT_TYPE_POLICY_ROOM, CHAT_TYPE_POLICY_EXPENSE_CHAT]
  · intro h
    rw [isUserCreatedPolicyRoom, beq_iff_eq] at h
    simp [isPolicyExpenseChat, h, CHAT_TYPE_POLICY_ROOM, CHAT_TYPE_POLICY_EXPENSE_CHAT]
  · intro h
    rw [isDefaultRoom] at h
    have hmem : chatTypeOf report = CHAT_TYPE_POLICY_ADMINS
        ∨ chatTypeOf report = CHAT_TYPE_POLICY_ANNOUNCE
        ∨ chatTypeOf report = CHAT_TYPE_DOMAIN_ALL := by
      simpa using h
    rcases hmem with h' | h' | h' <;>
      refine ⟨?_, ?_⟩ <;>
        simp [isUserCreatedPolicyRoom, isPolicyExpenseChat, h',
          CHAT_TYPE_POLICY_ADMINS, CHAT_TYPE_POLICY_ANNOUNCE, CHAT_TYPE_DOMAIN_ALL,
          CHAT_TYPE_POLICY_ROOM, CHAT_TYPE_POLICY_EXPENSE_CHAT]

theorem roomKindPredicates_exclusive_witness :
    isAdminRoom { chatType := some CHAT_TYPE_POLICY_ADMINS } = true
    ∧ isAnnounceRoom { chatType := some CHAT_TYPE_POLICY_ADMINS } = false
    ∧ isUserCreatedPolicyRoom { chatType := some CHAT_TYPE_POLICY_ADMINS } = false
    ∧ isPolicyExpenseChat { chatType := some CHAT_TYPE_POLICY_ADMINS } = false :=
  ⟨by decide,
   ((roomKindPredicates_exclusive _).1 (by decide)).1,
   ((roomKindPredicates_exclusive _).1 (by decide)).2.1,
   ((roomKindPredicates_exclusive _).1 (by decide)).2.2⟩

/-- C4: `findLastAccessedReport` is the last element of the sorted
sequence, after dropping default rooms when the flag is set; it is `none`
on an empty filtered sequence (in particular on empty input), and with the
flag set it never returns a default room. -/
theorem findLastAccessedReport_spec (reports : List (Option Report)) :
    (findLastAccessedReport reports false = (sortReportsByLastVisited reports).getLast?)
    ∧ (findLastAccessedReport reports true
        = ((sortReportsByLastVisited reports).filter
            (fun report => !(isDefaultRoom report))).getLast?)
    ∧ (findLastAccessedReport [] false = none ∧ findLastAccessedReport [] true = none)
    ∧ (∀ r, findLastAccessedReport reports true = some r → isDefaultRoom r = false) := by
  refine ⟨rfl, rfl, ⟨?_, ?_⟩, ?_⟩
  · simp [findLastAccessedReport, sortReportsByLastVisited]
  · simp [findLastAccessedReport, sortReportsByLastVisited]
  · intro r h
    have hmem : r ∈ (sortReportsByLastVisited reports).filter
        (fun report => !(isDefaultRoom report)) :=
      List.mem_of_getLast?_eq_some h
    have := (List.mem_filter.mp hmem).2
    simpa using this

theorem findLastAccessedReport_spec_witness :
    isDefaultRoom { reportID := some "1", lastVisitedTimestamp := some 5 } = false := by
  apply (findLastAccessedReport_spec
    [some { reportID := some "1", lastVisitedTimestamp := some 5 }]).2.2.2
  simp [findLastAccessedReport, sortReportsByLastVisited, keptEntry, jsTruthyStr,
    isDefaultRoom, chatTypeOf, CHAT_TYPE_POLICY_ADMINS, CHAT_TYPE_POLICY_ANNOUNCE,
    CHAT_TYPE_DOMAIN_ALL]

/-- C8: `canShowReportRecipientLocalTime` is truthy exactly when the report
has exactly one participant, that participant's profile is present in the
personal-details map, the profile has a timezone whose selected flag is
set, and the participant is not a reserved system email. -/
theorem canShowReportRecipientLocalTime_spec
    (personalDetails : List (String × PersonalDetail)) (report : Report) :
    canShowReportRecipientLocalTime personalDetails report = true ↔
      ∃ p, report.participants.getD [] = [p]
        ∧ hasExpensifyEmails [p] = false
        ∧ ∃ d, personalDetails.lookup p = some d
        ∧ ∃ tz, d.timezone = some tz ∧ tz.selected = true := by
  unfold canShowReportRecipientLocalTime
  cases hp : report.participants.getD [] with
  | nil => simp
  | cons p rest =>
      cases rest with
      | cons q rest' => simp
      | nil =>
          cases hd : personalDetails.lookup p with
          | none => simp [hd]
          | some d =>
              cases ht : d.timezone with
              | none => simp [hd, ht, DEFAULT_TIME_ZONE]
              | some tz => simp [hd, ht, and_assoc]

theorem canShowReportRecipientLocalTime_spec_witness :
    canShowReportRecipientLocalTime
      [("friend@example.com", { timezone := some { selected := true } })]
      { participants := some ["friend@example.com"] } = true :=
  (canShowReportRecipientLocalTime_spec _ _).mpr
    ⟨"friend@example.com", rfl, by decide,
      { timezone := some { selected := true } }, by decide,
      { selected := true }, rfl, rfl⟩

/-- C5 counterexample: the two operations named by the claim do raise on
well-typed input with the optional field absent: `isDeletedAction` on an
action without a `message` field dereferences `undefined.length`, and
`getChatRoomSubtitle` on a domain-all report without a `reportName`
dereferences `undefined.substring`. -/
theorem no_throw_counterexample :
    isDeletedAction { message := none }
      = Except.error "TypeError: cannot read length of undefined"
    ∧ getChatRoomSubtitle (fun key => key)
        { chatType := some CHAT_TYPE_DOMAIN_ALL, reportName := none } []
      = Except.error "TypeError: cannot read substring of undefined" :=
  ⟨rfl, by simp [getChatRoomSubtitle, isDefaultRoom, chatTypeOf, CHAT_TYPE_POLICY_ADMINS,
    CHAT_TYPE_POLICY_ANNOUNCE, CHAT_TYPE_DOMAIN_ALL]⟩

/-- C5 amended: `isDeletedAction` returns a value exactly when the
`message` field is present, and `getChatRoomSubtitle` returns a value
exactly when the report is not a domain-all room with an absent
`reportName`; those are the only raising inputs of the two operations the
claim names. -/
theorem defaulting_no_throw_amended :
    (∀ a : ReportAction,
      (∃ b, isDeletedAction a = Except.ok b) ↔ a.message ≠ none)
    ∧ (∀ (translateLocal : String → String) (report : Report)
        (policiesMap : List (String × Policy)),
        (∃ s, getChatRoomSubtitle translateLocal report policiesMap = Except.ok s) ↔
          ¬(report.chatType = some CHAT_TYPE_DOMAIN_ALL ∧ report.reportName = none)) := by
  constructor
  · intro a
    cases hm : a.message with
    | none => simp [isDeletedAction, hm]
    | some l =>
        cases l with
        | nil => simp [isDeletedAction, hm]
        | cons m rest => simp [isDeletedAction, hm]
  · intro translateLocal report policiesMap
    by_cases hdom : report.chatType = some CHAT_TYPE_DOMAIN_ALL
    · have hdef : isDefaultRoom report = true := by
        unfold isDefaultRoom chatTypeOf
        rw [hdom]
        decide
      cases hname : report.reportName with
      | none => simp [getChatRoomSubtitle, hdef, hdom, hname]
      | some n => simp [getChatRoomSubtitle, hdef, hdom, hname]
    · have hbeq : (report.chatType == some CHAT_TYPE_DOMAIN_ALL) = false := by
        simpa using hdom
      have hex : ∃ s, getChatRoomSubtitle translateLocal report policiesMap = Except.ok s := by
        unfold getChatRoomSubtitle
        rw [hbeq]
        split
        · exact ⟨_, rfl⟩
        · split
          · rename_i hfalse
            exact absurd hfalse (by simp)
          · split
            · exact ⟨_, rfl⟩
            · split
              · exact ⟨_, rfl⟩
              · exact ⟨_, rfl⟩
      exact iff_of_true hex (fun hc => hdom hc.1)

theorem defaulting_no_throw_amended_witness :
    (∃ b, isDeletedAction { message := some [] } = Except.ok b)
    ∧ (∃ s, getChatRoomSubtitle (fun key => key)
        { chatType := some CHAT_TYPE_DOMAIN_ALL, reportName := some "#Acme" } []
          = Except.ok s) :=
  ⟨(defaulting_no_throw_amended.1 _).mpr (by simp),
   (defaulting_no_throw_amended.2 (fun key => key) _ []).mpr (by simp)⟩

/-! Helper lemmas for the `getChatRoomSubtitle` cascade. -/

theorem subtitleGuard_false_of_archived (report : Report)
    (h : isArchivedRoom report = true) :
    (!(isDefaultRoom report) && !(isUserCreatedPolicyRoom report)
      && !(isPolicyExpenseChat report)) = false := by
  unfold isArchivedRoom isChatRoom at h
  rcases hd : isDefaultRoom report <;> rcases hu : isUserCreatedPolicyRoom report
    <;> rcases he : isPolicyExpenseChat report <;> simp_all

theorem chatType_of_isPolicyExpenseChat (report : Report)
    (h : isPolicyExpenseChat report = true) :
    report.chatType = some CHAT_TYPE_POLICY_EXPENSE_CHAT := by
  rw [isPolicyExpenseChat, beq_iff_eq] at h
  unfold chatTypeOf at h
  cases hc : report.chatType with
  | none =>
      rw [hc] at h
      exact absurd h (by decide)
  | some s =>
      rw [hc] at h
      simp at h
      rw [h]

/-- C7: `getChatRoomSubtitle` returns the empty string for reports that are
not default rooms, user-created policy rooms or policy-expense chats; for
domain-all rooms it strips the leading "#" of the report name; for archived
rooms (not domain-all) it returns the stored `oldPolicyName`; for the
caller's own policy-expense chat it returns the localized workspace label;
otherwise it returns the policy name under `policy_<policyID>`, defaulting
to the localized unavailable label. -/
theorem getChatRoomSubtitle_spec (translateLocal : String → String) (report : Report)
    (policiesMap : List (String × Policy)) :
    (isDefaultRoom report = false → isUserCreatedPolicyRoom report = false →
        isPolicyExpenseChat report = false →
        getChatRoomSubtitle translateLocal report policiesMap = Except.ok (some ""))
    ∧ (∀ s, report.chatType = some CHAT_TYPE_DOMAIN_ALL →
        report.reportName = some ("#" ++ s) →
        getChatRoomSubtitle translateLocal report policiesMap = Except.ok (some s))
    ∧ (report.chatType ≠ some CHAT_TYPE_DOMAIN_ALL → isArchivedRoom report = true →
        getChatRoomSubtitle translateLocal report policiesMap
          = Except.ok report.oldPolicyName)
    ∧ (isPolicyExpenseChat report = true → report.isOwnPolicyExpenseChat = true →
        isArchivedRoom report = false →
        getChatRoomSubtitle translateLocal report policiesMap
          = Except.ok (some (translateLocal "workspace.common.workspace")))
    ∧ ((isDefaultRoom report = true ∨ isUserCreatedPolicyRoom report = true
          ∨ isPolicyExpenseChat report = true) →
        report.chatType ≠ some CHAT_TYPE_DOMAIN_ALL → isArchivedRoom report = false →
        ¬(isPolicyExpenseChat report = true ∧ report.isOwnPolicyExpenseChat = true) →
        getChatRoomSubtitle translateLocal report policiesMap
          = Except.ok (some
              (((policiesMap.lookup
                  (ONYXKEYS_COLLECTION_POLICY ++ jsStringOf report.policyID)).bind
                  Policy.name).getD (translateLocal "workspace.common.unavailable")))) := by
  refine ⟨?_, ?_, ?_, ?_, ?_⟩
  · intro h1 h2 h3
    simp [getChatRoomSubtitle, h1, h2, h3]
  · intro s hdom hname
    have hdef : isDefaultRoom report = true := by
      unfold isDefaultRoom chatTypeOf
      rw [hdom]
      decide
    have hkey : String.mk (("#" ++ s).data.drop 1) = s := by
      cases s with
      | mk l => rfl
    simp [getChatRoomSubtitle, hdef, hdom, hname, hkey]
  · intro hnd harch
    have hguard := subtitleGuard_false_of_archived report harch
    have hbeq : (report.chatType == some CHAT_TYPE_DOMAIN_ALL) = false := by
      simpa using hnd
    simp [getChatRoomSubtitle, hguard, hbeq, harch]
  · intro hpe hown harchf
    have hct := chatType_of_isPolicyExpenseChat report hpe
    have hbeq : (report.chatType == some CHAT_TYPE_DOMAIN_ALL) = false := by
      rw [hct]
      decide
    simp [getChatRoomSubtitle, hpe, hbeq, harchf, hown]
  · intro hg hnd harchf hnpe
    have hguard : (!(isDefaultRoom report) && !(isUserCreatedPolicyRoom report)
        && !(isPolicyExpenseChat report)) = false := by
      rcases hg with h | h | h <;> simp [h]
    have hbeq : (report.chatType == some CHAT_TYPE_DOMAIN_ALL) = false := by
      simpa using hnd
    have hpe4 : (isPolicyExpenseChat report && report.isOwnPolicyExpenseChat) = false := by
      rcases hb : isPolicyExpenseChat report <;>
        rcases ho : report.isOwnPolicyExpenseChat <;> simp_all
    simp [getChatRoomSubtitle, hguard, hbeq, harchf, hpe4]

theorem getChatRoomSubtitle_spec_witness :
    getChatRoomSubtitle (fun key => key)
      { chatType := some CHAT_TYPE_DOMAIN_ALL, reportName := some "#Acme" } []
      = Except.ok (some "Acme") :=
  (getChatRoomSubtitle_spec (fun key => key) _ []).2.1 "Acme" rfl (by decide)

end ReportUtils
